import Mathlib

/-!
Verification development for the k8s-image-updater image update decision engine.

The definitions below are a shallow embedding of the Go sources:
  - pkg/registry/client.go  (tag sorting, version comparison via hashicorp/go-version)
  - pkg/updater/updater.go  (credential resolution, tag filtering, the four update
    modes, and the per-container update dispatch)

External collaborators (the container-registry network client, the Kubernetes
API, JSON unmarshalling, base64 decoding, regular-expression compilation and
the image-reference library) are modelled as explicit oracle parameters, so
every embedded function is total and executable.  Go maps that may be nil are
modelled as `Option` association lists: reading a nil map yields the zero
value, writing to a nil map is a fault (Go run-time panic).

The version grammar and comparison model hashicorp/go-version `NewVersion` /
`Compare`: an optional leading `v`, dotted numeric segments (compared with
zero padding), an optional prerelease (absence of a prerelease compares
greater), and ignored build metadata.  Two deliberate simplifications of the
library, documented where they occur, are: 64-bit overflow of numeric
components is ignored, and the library's non-antisymmetric answer on distinct
numeric prerelease parts of equal value (for example `01` versus `1`) is
resolved by string comparison so that the modelled ordering stays total on
that corner; no claim in this development depends on either corner.

Go's `sort.Slice` runs plain insertion sort for slices of fewer than 13
elements, which covers every concrete input considered here; the insertion
sort is embedded exactly (an element bubbles left past every neighbour the
comparator places after it).
-/

namespace ImageUpdater

/-- Decimal digit character, `[0-9]` in the go-version grammar. -/
def isDigitC (c : Char) : Bool :=
  decide ('0' ≤ c) && decide (c ≤ '9')

/-- Letter character, `[A-Za-z]` in the go-version grammar. -/
def isAlphaC (c : Char) : Bool :=
  (decide ('A' ≤ c) && decide (c ≤ 'Z')) || (decide ('a' ≤ c) && decide (c ≤ 'z'))

/-- Character allowed inside a prerelease or metadata part: `[0-9A-Za-z-~]`. -/
def isPreChar (c : Char) : Bool :=
  isDigitC c || isAlphaC c || decide (c = '-') || decide (c = '~')

/-- Character that may appear in the dotted numeric core of a version. -/
def isCoreChar (c : Char) : Bool :=
  isDigitC c || decide (c = '.')

/-- Character that may appear in the raw prerelease span (parts plus dots). -/
def isPreSpanChar (c : Char) : Bool :=
  isPreChar c || decide (c = '.')

/-- Numeric value of a digit string (overflow of Go's int64 is not modelled). -/
def digitsVal (cs : List Char) : Nat :=
  cs.foldl (fun n c => 10 * n + (c.toNat - 48)) 0

/-- Split a character list at every dot, keeping empty parts. -/
def splitOnDot : List Char → List (List Char)
  | [] => [[]]
  | c :: rest =>
    let r := splitOnDot rest
    if c = '.' then [] :: r
    else
      match r with
      | h :: t => (c :: h) :: t
      | [] => [[c]]

/-- Lexicographic strict comparison of character lists; on ASCII data this is
exactly Go's byte-wise `<` on strings. -/
def charListLt : List Char → List Char → Bool
  | [], [] => false
  | [], _ :: _ => true
  | _ :: _, [] => false
  | a :: as, b :: bs =>
    if a < b then true
    else if b < a then false
    else charListLt as bs

/-- A parsed go-version value: numeric segments (padded to three entries, as
`NewVersion` does) and the prerelease split at dots (`[]` means that there is
no prerelease).  Build metadata is validated during parsing but discarded,
since `Compare` ignores it. -/
structure GoVersion where
  segments : List Nat
  pre : List (List Char)
deriving DecidableEq, Repr

/-- Every dot-separated part is a nonempty digit run. -/
def validSegParts (parts : List (List Char)) : Bool :=
  parts.all fun p => (!p.isEmpty) && p.all isDigitC

/-- Every dot-separated part is a nonempty run of prerelease characters. -/
def validPreParts (parts : List (List Char)) : Bool :=
  parts.all fun p => (!p.isEmpty) && p.all isPreChar

/-- Build metadata after `+`: nonempty dot-separated parts over `[0-9A-Za-z-~]`. -/
def validMeta (m : List Char) : Bool :=
  (!m.isEmpty) && validPreParts (splitOnDot m)

/-- The prerelease string selected by go-version's regular expression from the
raw span `praw` that follows the numeric core.  When the span starts with a
hyphen, the hyphen is a separator if a digit-, letter-, `-`- or `~`-led body
follows (the body becomes the prerelease); with an empty or dot-led body the
hyphen itself belongs to the prerelease. -/
def preStrOfSpan (praw : List Char) : List Char :=
  match praw with
  | '-' :: body =>
    match body with
    | [] => praw
    | '.' :: _ => praw
    | _ => body
  | _ => praw

/-- Parse the remainder after the numeric core: an optional prerelease and
optional `+` metadata, returning the prerelease parts.  `none` models a
`NewVersion` "malformed version" error. -/
def parsePreAndMeta (rest : List Char) : Option (List (List Char)) :=
  match rest with
  | [] => some []
  | '+' :: m => if validMeta m then some [] else none
  | c :: _ =>
    if isPreSpanChar c then
      let praw := rest.takeWhile isPreSpanChar
      let r2 := rest.dropWhile isPreSpanChar
      let preStr := preStrOfSpan praw
      let parts := splitOnDot preStr
      if validPreParts parts then
        match r2 with
        | [] => some parts
        | '+' :: m => if validMeta m then some parts else none
        | _ => none
      else none
    else none

/-- Model of hashicorp/go-version `NewVersion` on the characters of a tag:
optional `v` prefix, a maximal dotted numeric core (validated), then an
optional prerelease and optional metadata.  Segments are padded with zeros up
to length three exactly as the library does. -/
def parseGoVersion (cs0 : List Char) : Option GoVersion :=
  let cs := match cs0 with
    | 'v' :: r => r
    | l => l
  let core := cs.takeWhile isCoreChar
  let rest := cs.dropWhile isCoreChar
  if core.isEmpty then none
  else
    let segParts := splitOnDot core
    if validSegParts segParts then
      match parsePreAndMeta rest with
      | none => none
      | some preParts =>
        let segs := segParts.map digitsVal
        let segs := if segs.length < 3 then segs ++ List.replicate (3 - segs.length) 0 else segs
        some { segments := segs, pre := preParts }
    else none

/-- Does a segment list contain a positive entry?  Used for the zero-padded
comparison against an exhausted side. -/
def segsHasPositive : List Nat → Bool
  | [] => false
  | y :: ys => decide (0 < y) || segsHasPositive ys

/-- Segment comparison with zero padding, as go-version `Compare` performs it:
missing trailing segments count as zero, so an exhausted left side is below
exactly when the remaining right side still holds a positive entry. -/
def compareSegments : List Nat → List Nat → Ordering
  | [], ys => if segsHasPositive ys then .lt else .eq
  | x :: xs, [] =>
    if 0 < x then .gt else compareSegments xs []
  | x :: xs, y :: ys =>
    if x < y then .lt else if y < x then .gt else compareSegments xs ys

/-- Is a prerelease part numeric for `strconv.ParseInt` (an optional leading
minus sign followed by digits)? -/
def isNumericPart (p : List Char) : Bool :=
  match p with
  | '-' :: ds => (!ds.isEmpty) && ds.all isDigitC
  | ds => (!ds.isEmpty) && ds.all isDigitC

/-- Integer value of a numeric prerelease part. -/
def partInt (p : List Char) : Int :=
  match p with
  | '-' :: ds => -(digitsVal ds : Int)
  | ds => (digitsVal ds : Int)

/-- go-version `comparePart` on one pair of prerelease parts.  An empty part
(arising from length padding) is below a numeric part but above an
alphanumeric one; numeric parts are below alphanumeric parts; equal-valued
numeric parts with different spellings are resolved by string comparison
(see the module comment on this totalisation). -/
def comparePart (a b : List Char) : Ordering :=
  if a = b then .eq
  else if a.isEmpty then (if isNumericPart b then .lt else .gt)
  else if b.isEmpty then (if isNumericPart a then .gt else .lt)
  else if isNumericPart a then
    if isNumericPart b then
      if partInt a < partInt b then .lt
      else if partInt b < partInt a then .gt
      else if charListLt a b then .lt else .gt
    else .lt
  else
    if isNumericPart b then .gt
    else if charListLt b a then .gt else .lt

/-- Remaining right-side prerelease parts compared against empty padding. -/
def comparePadLeft : List (List Char) → Ordering
  | [] => .eq
  | y :: ys =>
    match comparePart [] y with
    | .eq => comparePadLeft ys
    | o => o

/-- Part-wise prerelease comparison with empty-part padding, as in
go-version `comparePrereleases`. -/
def comparePreParts : List (List Char) → List (List Char) → Ordering
  | [], ys => comparePadLeft ys
  | x :: xs, [] =>
    match comparePart x [] with
    | .eq => comparePreParts xs []
    | o => o
  | x :: xs, y :: ys =>
    match comparePart x y with
    | .eq => comparePreParts xs ys
    | o => o

/-- Prerelease comparison: equal strings are equal, a version without a
prerelease is greater than one with a prerelease, otherwise compare parts. -/
def comparePre (p1 p2 : List (List Char)) : Ordering :=
  if p1 = p2 then .eq
  else if p1.isEmpty then .gt
  else if p2.isEmpty then .lt
  else comparePreParts p1 p2

/-- go-version `Compare`: zero-padded segments first, then prereleases.
Build metadata is ignored. -/
def versionCompare (v1 v2 : GoVersion) : Ordering :=
  match compareSegments v1.segments v2.segments with
  | .eq => comparePre v1.pre v2.pre
  | o => o

/-- `strings.TrimPrefix(tag, "v")`: drop one leading `v` when present. -/
def stripV (cs : List Char) : List Char :=
  match cs with
  | 'v' :: r => r
  | l => l

/-- The parsed version of a tag after the `v`-strip performed by
`SortVersionTags` (the grammar itself tolerates one more `v`). -/
def tagVersion (t : String) : Option GoVersion :=
  parseGoVersion (stripV t.data)

/-- The comparator passed to `sort.Slice` in `SortVersionTags`
(pkg/registry/client.go lines 122-144): strictly greater versions come first;
on `Equal` versions a tag whose `v`-stripped form has no hyphen precedes a
suffixed one, and otherwise the tie is broken by descending string comparison
of the `v`-stripped forms. -/
def lessTag (t1 t2 : String) : Bool :=
  match tagVersion t1, tagVersion t2 with
  | some v1, some v2 =>
    match versionCompare v1 v2 with
    | .eq =>
      let s1 := stripV t1.data
      let s2 := stripV t2.data
      let h1 := s1.contains '-'
      let h2 := s2.contains '-'
      if h1 != h2 then !h1
      else charListLt s2 s1
    | .gt => true
    | .lt => false
  | _, _ => false

/-- One step of Go's insertion sort, on the reversed sorted prefix: the new
element `x` bubbles past every element `y` with `less x y`. -/
def rins (less : α → α → Bool) (x : α) : List α → List α
  | [] => [x]
  | y :: ys => if less x y then y :: rins less x ys else x :: y :: ys

/-- Go's insertion sort (the algorithm `sort.Slice` runs on short slices),
keeping the sorted prefix reversed in the accumulator. -/
def goSort (less : α → α → Bool) (l : List α) : List α :=
  (l.foldl (fun racc x => rins less x racc) []).reverse

/-- `SortVersionTags` (pkg/registry/client.go lines 106-147): keep the tags
that parse as versions after a `v`-strip, in input order, and sort them with
the `lessTag` comparator. -/
def SortVersionTags (tags : List String) : List String :=
  goSort lessTag (tags.filter fun t => (tagVersion t).isSome)

/-- `SortAlphabeticalTags` (pkg/registry/client.go lines 100-103): descending
lexicographic sort of all tags, no filtering. -/
def SortAlphabeticalTags (tags : List String) : List String :=
  goSort (fun a b => charListLt b.data a.data) tags

/-- The empty string (Go's zero value for strings). -/
def blank : String := ""

/-- Go map entries: an association list of string keys and values. -/
abbrev Entries := List (String × String)

/-- A Go `map[string]string` that may be nil (`none`). -/
abbrev GoMap := Option Entries

/-- Write a key into an association list, replacing an existing entry. -/
def setEntry : Entries → String → String → Entries
  | [], k, v => [(k, v)]
  | (k', v') :: rest, k, v =>
    if k' = k then (k, v) :: rest else (k', v') :: setEntry rest k v

/-- Read from a possibly-nil Go map: a missing key or a nil map yields "". -/
def mapGet (m : GoMap) (k : String) : String :=
  match m with
  | none => blank
  | some l =>
    match l.lookup k with
    | some v => v
    | none => blank

/-- Write to a possibly-nil Go map: writing to a nil map is a run-time panic
in Go, modelled as `none`. -/
def mapSet (m : GoMap) (k v : String) : Option GoMap :=
  match m with
  | none => none
  | some l => some (some (setEntry l k v))

/-- Outcome of an embedded updater call: a Go run-time panic (`fault`), a
returned non-nil `error`, or a normal result. -/
inductive GoResult (α : Type) where
  | fault : GoResult α
  | err : String → GoResult α
  | ok : α → GoResult α
deriving DecidableEq, Repr

/-- `registry.ImageInfo` (pkg/registry/client.go lines 15-20). -/
structure ImageInfo where
  registry : String
  repository : String
  tag : String
  digest : String
deriving DecidableEq, Repr

/-- The authenticator held by a registry client. -/
inductive RegistryClient where
  | anonymous : RegistryClient
  | basic : String → String → RegistryClient
deriving DecidableEq, Repr

/-- `registry.NewRegistryClient` (pkg/registry/client.go lines 26-37): basic
auth when both username and password are nonempty, anonymous otherwise. -/
def NewRegistryClient (username password : String) : RegistryClient :=
  if username ≠ blank ∧ password ≠ blank then .basic username password
  else .anonymous

/-- A Kubernetes secret as the credential resolver sees it. -/
structure K8sSecret where
  stype : String
  data : Entries
deriving DecidableEq, Repr

/-- One entry of a docker config document (pkg/updater/updater.go lines 90-94). -/
structure DockerConfigEntry where
  username : String
  password : String
  auth : String
deriving DecidableEq, Repr

/-- A docker config document keyed by registry host (lines 95-97). -/
structure DockerConfigJSON where
  auths : List (String × DockerConfigEntry)
deriving DecidableEq, Repr

/-- `corev1.SecretTypeDockerConfigJson`. -/
def SecretTypeDockerConfigJson : String := "kubernetes.io/dockerconfigjson"

/-- `corev1.DockerConfigJsonKey`. -/
def DockerConfigJsonKey : String := ".dockerconfigjson"

/-- `strings.SplitN(s, ":", 2)` restricted to what the caller uses: the parts
before and after the first colon, or `none` when there is no colon. -/
def splitFirstColon : List Char → Option (List Char × List Char)
  | [] => none
  | c :: rest =>
    if c = ':' then some ([], rest)
    else
      match splitFirstColon rest with
      | some (a, b) => some (c :: a, b)
      | none => none

/-- The loop body of `getRegistryClientForImage` (pkg/updater/updater.go lines
99-140): walk the secret names in order; skip a secret whose fetch fails,
whose type is wrong, which lacks the docker-config key, which does not
unmarshal, which has no entry for the registry host, or whose nonempty auth
field fails to base64-decode; on the first surviving entry build a client from
the decoded `user:pass` auth (when it contains a colon) or from the entry's
username and password fields. -/
def findRegistryCreds (getSecretO : String → String → Except String K8sSecret)
    (unmarshalO : String → Option DockerConfigJSON)
    (b64decodeO : String → Option String)
    (ns imageRegistry : String) : List String → RegistryClient
  | [] => NewRegistryClient blank blank
  | secretName :: rest =>
    match getSecretO ns secretName with
    | .error _ => findRegistryCreds getSecretO unmarshalO b64decodeO ns imageRegistry rest
    | .ok secret =>
      if secret.stype ≠ SecretTypeDockerConfigJson then
        findRegistryCreds getSecretO unmarshalO b64decodeO ns imageRegistry rest
      else
        match secret.data.lookup DockerConfigJsonKey with
        | none => findRegistryCreds getSecretO unmarshalO b64decodeO ns imageRegistry rest
        | some configData =>
          match unmarshalO configData with
          | none => findRegistryCreds getSecretO unmarshalO b64decodeO ns imageRegistry rest
          | some dockerConfig =>
            match dockerConfig.auths.lookup imageRegistry with
            | none => findRegistryCreds getSecretO unmarshalO b64decodeO ns imageRegistry rest
            | some authEntry =>
              if authEntry.auth ≠ blank then
                match b64decodeO authEntry.auth with
                | none => findRegistryCreds getSecretO unmarshalO b64decodeO ns imageRegistry rest
                | some decoded =>
                  match splitFirstColon decoded.data with
                  | some (u, p) => NewRegistryClient (String.mk u) (String.mk p)
                  | none => NewRegistryClient authEntry.username authEntry.password
              else NewRegistryClient authEntry.username authEntry.password

/-- `getRegistryClientForImage` (pkg/updater/updater.go lines 80-144).  The
image-reference parser, secret store, JSON unmarshaller and base64 decoder are
oracle parameters.  The second component is the returned Go `error`, which is
nil (`none`) on every path of the source. -/
def getRegistryClientForImage (parseO : String → Except String ImageInfo)
    (getSecretO : String → String → Except String K8sSecret)
    (unmarshalO : String → Option DockerConfigJSON)
    (b64decodeO : String → Option String)
    (image ns : String) (secretNames : List String) :
    RegistryClient × Option String :=
  match parseO image with
  | .error _ => (NewRegistryClient blank blank, none)
  | .ok imageInfo =>
    (findRegistryCreds getSecretO unmarshalO b64decodeO ns imageInfo.registry secretNames,
     none)

/-- Error text of `filterTagsByRegex` (the `%v` detail of the Go message is
not modelled because the compile oracle reports no message). -/
def invalidRegexMsg : String := "invalid regex for allow-tags"

/-- `filterTagsByRegex` (pkg/updater/updater.go lines 147-163): the input is
returned unchanged for an empty pattern; otherwise the pattern is compiled
(`compileO` models `regexp.Compile`, `none` being a compile failure) and the
matching tags are kept in order. -/
def filterTagsByRegex (compileO : String → Option (String → Bool))
    (tags : List String) (regexStr : String) : Except String (List String) :=
  if regexStr = blank then .ok tags
  else
    match compileO regexStr with
    | none => .error invalidRegexMsg
    | some re => .ok (tags.filter re)

/-- Wrapped message for an image-parse failure. -/
def parseFailMsg (img e : String) : String :=
  "failed to parse image " ++ img ++ ": " ++ e

/-- Wrapped message for a tag-list failure. -/
def listTagsFailMsg (img e : String) : String :=
  "failed to list tags for " ++ img ++ ": " ++ e

/-- Wrapped message for a digest-fetch failure. -/
def getDigestFailMsg (img e : String) : String :=
  "failed to get digest for " ++ img ++ ": " ++ e

/-- `registry/repository:tag`, the `fmt.Sprintf("%s/%s:%s", ...)` format. -/
def imageWithTag (info : ImageInfo) (t : String) : String :=
  info.registry ++ "/" ++ info.repository ++ ":" ++ t

/-- `registry/repository@digest`, the `fmt.Sprintf("%s/%s@%s", ...)` format. -/
def imageWithDigest (info : ImageInfo) (d : String) : String :=
  info.registry ++ "/" ++ info.repository ++ "@" ++ d

/-- `checkReleaseMode` (pkg/updater/updater.go lines 166-189): parse the
current image, list its tags, filter by the allow-tags regex, version-sort,
and propose `registry/repository:top` when the top tag differs from the
current one; otherwise (or when there is no version tag) propose nothing. -/
def checkReleaseMode (parseO : String → Except String ImageInfo)
    (listTags : String → Except String (List String))
    (compileO : String → Option (String → Bool))
    (currentImage allowTagsRegex : String) : Except String String :=
  match parseO currentImage with
  | .error e => .error (parseFailMsg currentImage e)
  | .ok imageInfo =>
    match listTags currentImage with
    | .error e => .error (listTagsFailMsg currentImage e)
    | .ok tags =>
      match filterTagsByRegex compileO tags allowTagsRegex with
      | .error e => .error e
      | .ok tags2 =>
        match SortVersionTags tags2 with
        | top :: _ =>
          if top ≠ imageInfo.tag then .ok (imageWithTag imageInfo top) else .ok blank
        | [] => .ok blank

/-- `checkAlphabeticalMode` (pkg/updater/updater.go lines 191-214): as release
mode but with the descending lexicographic sort. -/
def checkAlphabeticalMode (parseO : String → Except String ImageInfo)
    (listTags : String → Except String (List String))
    (compileO : String → Option (String → Bool))
    (currentImage allowTagsRegex : String) : Except String String :=
  match parseO currentImage with
  | .error e => .error (parseFailMsg currentImage e)
  | .ok imageInfo =>
    match listTags currentImage with
    | .error e => .error (listTagsFailMsg currentImage e)
    | .ok tags =>
      match filterTagsByRegex compileO tags allowTagsRegex with
      | .error e => .error e
      | .ok tags2 =>
        match SortAlphabeticalTags tags2 with
        | top :: _ =>
          if top ≠ imageInfo.tag then .ok (imageWithTag imageInfo top) else .ok blank
        | [] => .ok blank

/-- `checkDigestMode` (pkg/updater/updater.go lines 216-234): fetch the digest
of `registry/repository:tagToCheck`; when it differs from the digest recorded
in the current reference, propose the digest-addressed
`registry/repository@newDigest` (the tag is dropped); otherwise propose
nothing. -/
def checkDigestMode (parseO : String → Except String ImageInfo)
    (getDigest : String → Except String String)
    (currentImage tagToCheck : String) : Except String String :=
  match parseO currentImage with
  | .error e => .error (parseFailMsg currentImage e)
  | .ok imageInfo =>
    let imageToCheck := imageWithTag imageInfo tagToCheck
    match getDigest imageToCheck with
    | .error e => .error (getDigestFailMsg imageToCheck e)
    | .ok newDigest =>
      if newDigest ≠ imageInfo.digest then .ok (imageWithDigest imageInfo newDigest)
      else .ok blank

/-- Annotation key `image-updater.k8s.io/enabled` (config/config.go). -/
def AnnotationEnabled : String := "image-updater.k8s.io/enabled"

/-- Annotation key `image-updater.k8s.io/mode`. -/
def AnnotationMode : String := "image-updater.k8s.io/mode"

/-- Annotation key `image-updater.k8s.io/container`. -/
def AnnotationContainer : String := "image-updater.k8s.io/container"

/-- Annotation key `image-updater.k8s.io/allow-tags`. -/
def AnnotationAllowTags : String := "image-updater.k8s.io/allow-tags"

/-- Annotation key `kubectl.kubernetes.io/restartedAt`. -/
def AnnotationRestart : String := "kubectl.kubernetes.io/restartedAt"

/-- Annotation key `image-updater.k8s.io/last-digest`. -/
def AnnotationLastDigest : String := "image-updater.k8s.io/last-digest"

/-- `checkLatestMode` (pkg/updater/updater.go lines 236-258): fetch the digest
of the current image; when no `last-digest` annotation is stored, store the
digest and report update needed; when the stored digest differs, overwrite it,
stamp the restart marker (`now` models `time.Now()`) into the pod template
annotations, and report update needed; otherwise report nothing.  The two map
writes go through `mapSet`, so a nil map at either write is a `fault`. -/
def checkLatestMode (getDigest : String → Except String String)
    (now currentImage : String) (ann podAnn : GoMap) :
    GoResult (Bool × GoMap × GoMap) :=
  match getDigest currentImage with
  | .error e => .err (getDigestFailMsg currentImage e)
  | .ok newDigest =>
    let lastDigest := mapGet ann AnnotationLastDigest
    if lastDigest = blank then
      match mapSet ann AnnotationLastDigest newDigest with
      | none => .fault
      | some ann2 => .ok (true, ann2, podAnn)
    else if newDigest ≠ lastDigest then
      match mapSet ann AnnotationLastDigest newDigest with
      | none => .fault
      | some ann2 =>
        match mapSet podAnn AnnotationRestart now with
        | none => .fault
        | some podAnn2 => .ok (true, ann2, podAnn2)
    else .ok (false, ann, podAnn)

/-- A container of the pod template (name, image, imagePullPolicy). -/
structure Container where
  name : String
  image : String
  imagePullPolicy : String
deriving DecidableEq, Repr

/-- The pod template as the updater uses it: its annotation map (possibly
nil) and the names of its image pull secrets. -/
structure PodTemplate where
  annotations : GoMap
  imagePullSecrets : List String
deriving DecidableEq, Repr

/-- The marker prefix of a regex allow-tags specification. -/
def regexpMarker : String := "regexp:"

/-- `strings.HasPrefix(allowTagsSpec, "regexp:")`. -/
def hasRegexpMarker (s : String) : Bool :=
  regexpMarker.data.isPrefixOf s.data

/-- `strings.TrimPrefix(s, "regexp:")`. -/
def trimRegexpMarker (s : String) : String :=
  if hasRegexpMarker s then String.mk (s.data.drop 7) else s

/-- The tag checked by digest mode (pkg/updater/updater.go lines 311-314):
the allow-tags annotation verbatim when it is nonempty and does not carry the
`regexp:` marker, and `latest` otherwise. -/
def digestTagToCheck (allowTagsSpec : String) : String :=
  if allowTagsSpec ≠ blank ∧ ¬ hasRegexpMarker allowTagsSpec then allowTagsSpec
  else "latest"

/-- `updateContainerIfNeeded` (pkg/updater/updater.go lines 261-352).  The
result carries the update decision together with the mutated container,
resource annotation map and pod template.  The err-check after
`getRegistryClientForImage` is dead code in the source (that function always
returns a nil error) and is therefore not represented. -/
def updateContainerIfNeeded (parseO : String → Except String ImageInfo)
    (listTagsO : RegistryClient → String → Except String (List String))
    (getDigestO : RegistryClient → String → Except String String)
    (compileO : String → Option (String → Bool))
    (getSecretO : String → String → Except String K8sSecret)
    (unmarshalO : String → Option DockerConfigJSON)
    (b64decodeO : String → Option String)
    (now : String) (container : Container) (ann0 : GoMap)
    (ns : String) (podTemplate : PodTemplate) :
    GoResult (Bool × Container × GoMap × PodTemplate) :=
  let ann : GoMap := match ann0 with
    | none => some []
    | some l => some l
  if mapGet ann AnnotationEnabled ≠ "true" then .ok (false, container, ann, podTemplate)
  else
    let containerName := mapGet ann AnnotationContainer
    if containerName ≠ blank ∧ containerName ≠ container.name then
      .ok (false, container, ann, podTemplate)
    else
      let mode0 := mapGet ann AnnotationMode
      let mode := if mode0 = blank then "release" else mode0
      let allowTagsSpec := mapGet ann AnnotationAllowTags
      let allowTagsRegex :=
        if hasRegexpMarker allowTagsSpec then trimRegexpMarker allowTagsSpec else blank
      let rc := getRegistryClientForImage parseO getSecretO unmarshalO b64decodeO
        container.image ns podTemplate.imagePullSecrets
      let registryClient := rc.1
      if mode = "latest" then
        if container.imagePullPolicy ≠ "Always" then .ok (false, container, ann, podTemplate)
        else
          match checkLatestMode (getDigestO registryClient) now container.image ann
              podTemplate.annotations with
          | .fault => .fault
          | .err e => .err e
          | .ok (b, ann2, podAnn2) =>
            .ok (b, container, ann2, { podTemplate with annotations := podAnn2 })
      else if mode = "digest" then
        match checkDigestMode parseO (getDigestO registryClient) container.image
            (digestTagToCheck allowTagsSpec) with
        | .error e => .err e
        | .ok newImage =>
          if newImage ≠ blank then
            .ok (true, { container with image := newImage }, ann, podTemplate)
          else .ok (false, container, ann, podTemplate)
      else if mode = "alphabetical" ∨ mode = "name" then
        match checkAlphabeticalMode parseO (listTagsO registryClient) compileO
            container.image allowTagsRegex with
        | .error e => .err e
        | .ok newImage =>
          if newImage ≠ blank then
            .ok (true, { container with image := newImage }, ann, podTemplate)
          else .ok (false, container, ann, podTemplate)
      else if mode = "release" then
        match checkReleaseMode parseO (listTagsO registryClient) compileO
            container.image allowTagsRegex with
        | .error e => .err e
        | .ok newImage =>
          if newImage ≠ blank then
            .ok (true, { container with image := newImage }, ann, podTemplate)
          else .ok (false, container, ann, podTemplate)
      else .ok (false, container, ann, podTemplate)

/-- The credential a single secret yields for a registry host, following the
spec's resolver description as amended: `none` when the secret cannot be
fetched, has the wrong type, lacks the docker-config key, does not parse, has
no entry for the host, or has a nonempty auth field that fails to
base64-decode; otherwise the client built from the decoded `user:pass` auth
(when it contains a colon) or from the entry's username/password fields.
Used to state the first-match characterisation of `findRegistryCreds`. -/
def secretCreds (getSecretO : String → String → Except String K8sSecret)
    (unmarshalO : String → Option DockerConfigJSON)
    (b64decodeO : String → Option String)
    (ns imageRegistry secretName : String) : Option RegistryClient :=
  match getSecretO ns secretName with
  | .error _ => none
  | .ok secret =>
    if secret.stype ≠ SecretTypeDockerConfigJson then none
    else
      match secret.data.lookup DockerConfigJsonKey with
      | none => none
      | some configData =>
        match unmarshalO configData with
        | none => none
        | some dockerConfig =>
          match dockerConfig.auths.lookup imageRegistry with
          | none => none
          | some authEntry =>
            if authEntry.auth ≠ blank then
              match b64decodeO authEntry.auth with
              | none => none
              | some decoded =>
                match splitFirstColon decoded.data with
                | some (u, p) => some (NewRegistryClient (String.mk u) (String.mk p))
                | none => some (NewRegistryClient authEntry.username authEntry.password)
            else some (NewRegistryClient authEntry.username authEntry.password)

/-- Modelled from Go `regexp` semantics: `MatchString` for the anchored
pattern of the spec's filter example accepts exactly the nonempty strings made
of digits and dots. -/
def matchNumsDots (s : String) : Bool :=
  (!s.data.isEmpty) && s.data.all isCoreChar

/-! Generic facts about the embedded insertion sort. -/

theorem rins_perm (less : α → α → Bool) (x : α) (l : List α) :
    List.Perm (rins less x l) (x :: l) := by
  induction l with
  | nil => simp [rins]
  | cons y ys ih =>
    simp only [rins]
    cases hxy : less x y
    · simp only [Bool.false_eq_true, if_false]
      exact List.Perm.refl _
    · simp only [if_true]
      exact (ih.cons y).trans (List.Perm.swap x y ys)

theorem goSort_foldl_perm (less : α → α → Bool) :
    ∀ (l racc : List α),
      List.Perm (l.foldl (fun r x => rins less x r) racc) (l ++ racc) := by
  intro l
  induction l with
  | nil => intro racc; simp
  | cons x xs ih =>
    intro racc
    have h1 : (x :: xs).foldl (fun r x => rins less x r) racc
        = xs.foldl (fun r x => rins less x r) (rins less x racc) := rfl
    rw [h1]
    refine ((ih (rins less x racc)).trans ?_)
    refine (List.Perm.append_left xs (rins_perm less x racc)).trans ?_
    exact List.perm_middle

theorem goSort_perm (less : α → α → Bool) (l : List α) :
    List.Perm (goSort less l) l := by
  have h := goSort_foldl_perm less l []
  simpa [goSort] using (List.reverse_perm _).trans h

theorem rins_pairwise (less : α → α → Bool) (S : List α) (x : α) (l : List α)
    (hx : x ∈ S) (hl : ∀ a ∈ l, a ∈ S)
    (hasym : ∀ a ∈ S, ∀ b ∈ S, less a b = true → less b a = false)
    (hneg : ∀ a ∈ S, ∀ b ∈ S, ∀ c ∈ S,
      less a b = false → less b c = false → less a c = false)
    (h : l.Pairwise fun a b => less a b = false) :
    (rins less x l).Pairwise fun a b => less a b = false := by
  induction l with
  | nil => simp [rins]
  | cons y ys ih =>
    have hy : ∀ b ∈ ys, less y b = false := (List.pairwise_cons.mp h).1
    have hys : ys.Pairwise fun a b => less a b = false := (List.pairwise_cons.mp h).2
    have hyS : y ∈ S := hl y (List.mem_cons_self _ _)
    have hlys : ∀ a ∈ ys, a ∈ S := fun a ha => hl a (List.mem_cons_of_mem y ha)
    simp only [rins]
    cases hxy : less x y
    · simp only [Bool.false_eq_true, if_false]
      refine List.pairwise_cons.mpr ⟨?_, h⟩
      intro b hb
      rcases List.mem_cons.mp hb with hby | hbys
      · cases hby
        exact hxy
      · exact hneg x hx y hyS b (hlys b hbys) hxy (hy b hbys)
    · simp only [if_true]
      refine List.pairwise_cons.mpr ⟨?_, ih hlys hys⟩
      intro b hb
      have hb' : b ∈ x :: ys := (rins_perm less x ys).mem_iff.mp hb
      rcases List.mem_cons.mp hb' with hbx | hbys
      · cases hbx
        exact hasym x hx y hyS hxy
      · exact hy b hbys

theorem goSort_foldl_pairwise (less : α → α → Bool) (S : List α)
    (hasym : ∀ a ∈ S, ∀ b ∈ S, less a b = true → less b a = false)
    (hneg : ∀ a ∈ S, ∀ b ∈ S, ∀ c ∈ S,
      less a b = false → less b c = false → less a c = false) :
    ∀ (l racc : List α), (∀ a ∈ l, a ∈ S) → (∀ a ∈ racc, a ∈ S) →
      racc.Pairwise (fun a b => less a b = false) →
      (l.foldl (fun r x => rins less x r) racc).Pairwise fun a b => less a b = false := by
  intro l
  induction l with
  | nil => intro racc _ _ hr; exact hr
  | cons x xs ih =>
    intro racc hxl hracc hr
    have hxS : x ∈ S := hxl x (List.mem_cons_self _ _)
    have hxs : ∀ a ∈ xs, a ∈ S := fun a ha => hxl a (List.mem_cons_of_mem x ha)
    have hmem : ∀ a ∈ rins less x racc, a ∈ S := by
      intro a ha
      have ha' : a ∈ x :: racc := (rins_perm less x racc).mem_iff.mp ha
      rcases List.mem_cons.mp ha' with hax | har
      · cases hax; exact hxS
      · exact hracc a har
    exact ih (rins less x racc) hxs hmem (rins_pairwise less S x racc hxS hracc hasym hneg hr)

theorem goSort_pairwise (less : α → α → Bool) (S : List α) (l : List α)
    (hl : ∀ a ∈ l, a ∈ S)
    (hasym : ∀ a ∈ S, ∀ b ∈ S, less a b = true → less b a = false)
    (hneg : ∀ a ∈ S, ∀ b ∈ S, ∀ c ∈ S,
      less a b = false → less b c = false → less a c = false) :
    (goSort less l).Pairwise fun a b => less b a = false := by
  have h := goSort_foldl_pairwise less S hasym hneg l [] hl (by simp) (by simp)
  unfold goSort
  exact (List.pairwise_reverse).mpr h

theorem eq_of_perm_of_pairwise (R : α → α → Prop) :
    ∀ (l₁ l₂ : List α), List.Perm l₁ l₂ → l₁.Pairwise R → l₂.Pairwise R →
      (∀ a ∈ l₁, ∀ b ∈ l₁, R a b → R b a → a = b) → l₁ = l₂ := by
  intro l₁
  induction l₁ with
  | nil =>
    intro l₂ h _ _ _
    exact (h.symm.eq_nil).symm
  | cons a t₁ ih =>
    intro l₂ h h₁ h₂ hanti
    cases l₂ with
    | nil => exact absurd h.eq_nil (by simp)
    | cons b t₂ =>
      by_cases hab : a = b
      · subst hab
        have ht : List.Perm t₁ t₂ := h.cons_inv
        have := ih t₂ ht (List.pairwise_cons.mp h₁).2 (List.pairwise_cons.mp h₂).2
          (fun x hx y hy => hanti x (List.mem_cons_of_mem a hx) y (List.mem_cons_of_mem a hy))
        rw [this]
      · have hb₁ : b ∈ a :: t₁ := h.symm.subset (List.mem_cons_self _ _)
        have ha₂ : a ∈ b :: t₂ := h.subset (List.mem_cons_self _ _)
        have hbt₁ : b ∈ t₁ := by
          rcases List.mem_cons.mp hb₁ with hba | hbt
          · exact absurd hba.symm hab
          · exact hbt
        have hat₂ : a ∈ t₂ := by
          rcases List.mem_cons.mp ha₂ with hab' | hat
          · exact absurd hab' hab
          · exact hat
        have hRab : R a b := (List.pairwise_cons.mp h₁).1 b hbt₁
        have hRba : R b a := (List.pairwise_cons.mp h₂).1 a hat₂
        exact absurd (hanti a (List.mem_cons_self _ _) b (List.mem_cons_of_mem a hbt₁) hRab hRba) hab

/-! Helper computations for two-element sorts and the credential search. -/

theorem sortVersionTags_pair (t1 t2 : String)
    (h1 : (tagVersion t1).isSome = true) (h2 : (tagVersion t2).isSome = true) :
    SortVersionTags [t1, t2] = if lessTag t2 t1 = true then [t2, t1] else [t1, t2] := by
  by_cases hl : lessTag t2 t1 = true
  · simp [SortVersionTags, goSort, List.filter, h1, h2, rins, hl]
  · have hl' : lessTag t2 t1 = false := by
      cases hc : lessTag t2 t1
      · rfl
      · exact absurd hc hl
    simp [SortVersionTags, goSort, List.filter, h1, h2, rins, hl']

theorem lessTag_of_eq (t1 t2 : String) (v1 v2 : GoVersion)
    (h1 : tagVersion t1 = some v1) (h2 : tagVersion t2 = some v2)
    (he : versionCompare v1 v2 = .eq) :
    lessTag t1 t2 =
      (if (stripV t1.data).contains '-' != (stripV t2.data).contains '-'
        then !(stripV t1.data).contains '-'
        else charListLt (stripV t2.data) (stripV t1.data)) := by
  unfold lessTag
  rw [h1, h2]
  simp only [he]

theorem findRegistryCreds_findSome (getSecretO : String → String → Except String K8sSecret)
    (unmarshalO : String → Option DockerConfigJSON)
    (b64decodeO : String → Option String) (ns host : String) :
    ∀ names : List String,
      findRegistryCreds getSecretO unmarshalO b64decodeO ns host names =
        (names.findSome? (secretCreds getSecretO unmarshalO b64decodeO ns host)).getD
          (NewRegistryClient blank blank) := by
  intro names
  induction names with
  | nil => rfl
  | cons n rest ih =>
    rw [List.findSome?_cons]
    cases hs : getSecretO ns n with
    | error e =>
      have hc : secretCreds getSecretO unmarshalO b64decodeO ns host n = none := by
        simp [secretCreds, hs]
      have hf : findRegistryCreds getSecretO unmarshalO b64decodeO ns host (n :: rest)
          = findRegistryCreds getSecretO unmarshalO b64decodeO ns host rest := by
        simp [findRegistryCreds, hs]
      rw [hf, hc, ih]
    | ok secret =>
      by_cases ht : secret.stype = SecretTypeDockerConfigJson
      · cases hk : secret.data.lookup DockerConfigJsonKey with
        | none =>
          have hc : secretCreds getSecretO unmarshalO b64decodeO ns host n = none := by
            simp [secretCreds, hs, ht, hk]
          have hf : findRegistryCreds getSecretO unmarshalO b64decodeO ns host (n :: rest)
              = findRegistryCreds getSecretO unmarshalO b64decodeO ns host rest := by
            simp [findRegistryCreds, hs, ht, hk]
          rw [hf, hc, ih]
        | some configData =>
          cases hu : unmarshalO configData with
          | none =>
            have hc : secretCreds getSecretO unmarshalO b64decodeO ns host n = none := by
              simp [secretCreds, hs, ht, hk, hu]
            have hf : findRegistryCreds getSecretO unmarshalO b64decodeO ns host (n :: rest)
                = findRegistryCreds getSecretO unmarshalO b64decodeO ns host rest := by
              simp [findRegistryCreds, hs, ht, hk, hu]
            rw [hf, hc, ih]
          | some dockerConfig =>
            cases ha : dockerConfig.auths.lookup host with
            | none =>
              have hc : secretCreds getSecretO unmarshalO b64decodeO ns host n = none := by
                simp [secretCreds, hs, ht, hk, hu, ha]
              have hf : findRegistryCreds getSecretO unmarshalO b64decodeO ns host (n :: rest)
                  = findRegistryCreds getSecretO unmarshalO b64decodeO ns host rest := by
                simp [findRegistryCreds, hs, ht, hk, hu, ha]
              rw [hf, hc, ih]
            | some authEntry =>
              by_cases hau : authEntry.auth = blank
              · have hc : secretCreds getSecretO unmarshalO b64decodeO ns host n
                    = some (NewRegistryClient authEntry.username authEntry.password) := by
                  simp [secretCreds, hs, ht, hk, hu, ha, hau]
                have hf : findRegistryCreds getSecretO unmarshalO b64decodeO ns host (n :: rest)
                    = NewRegistryClient authEntry.username authEntry.password := by
                  simp [findRegistryCreds, hs, ht, hk, hu, ha, hau]
                rw [hf, hc]
                rfl
              · cases hb : b64decodeO authEntry.auth with
                | none =>
                  have hc : secretCreds getSecretO unmarshalO b64decodeO ns host n = none := by
                    simp [secretCreds, hs, ht, hk, hu, ha, hau, hb]
                  have hf : findRegistryCreds getSecretO unmarshalO b64decodeO ns host (n :: rest)
                      = findRegistryCreds getSecretO unmarshalO b64decodeO ns host rest := by
                    simp [findRegistryCreds, hs, ht, hk, hu, ha, hau, hb]
                  rw [hf, hc, ih]
                | some decoded =>
                  cases hsp : splitFirstColon decoded.data with
                  | none =>
                    have hc : secretCreds getSecretO unmarshalO b64decodeO ns host n
                        = some (NewRegistryClient authEntry.username authEntry.password) := by
                      simp [secretCreds, hs, ht, hk, hu, ha, hau, hb, hsp]
                    have hf : findRegistryCreds getSecretO unmarshalO b64decodeO ns host (n :: rest)
                        = NewRegistryClient authEntry.username authEntry.password := by
                      simp [findRegistryCreds, hs, ht, hk, hu, ha, hau, hb, hsp]
                    rw [hf, hc]
                    rfl
                  | some up =>
                    have hc : secretCreds getSecretO unmarshalO b64decodeO ns host n
                        = some (NewRegistryClient (String.mk up.1) (String.mk up.2)) := by
                      simp [secretCreds, hs, ht, hk, hu, ha, hau, hb, hsp]
                    have hf : findRegistryCreds getSecretO unmarshalO b64decodeO ns host (n :: rest)
                        = NewRegistryClient (String.mk up.1) (String.mk up.2) := by
                      simp [findRegistryCreds, hs, ht, hk, hu, ha, hau, hb, hsp]
                    rw [hf, hc]
                    rfl
      · have hc : secretCreds getSecretO unmarshalO b64decodeO ns host n = none := by
          simp [secretCreds, hs, ht]
        have hf : findRegistryCreds getSecretO unmarshalO b64decodeO ns host (n :: rest)
            = findRegistryCreds getSecretO unmarshalO b64decodeO ns host rest := by
          simp [findRegistryCreds, hs, ht]
        rw [hf, hc, ih]

/-! The claims. -/

/-- C1: the spec (and the repository's own test `TestSortVersionTags`) claim
that `SortVersionDescending` on the six-tag test vector returns
`[v2.0.0, v1.10.0, v1.2.0, v1.1.0, 1.5.0, 1.4.1]`.  The embedded code instead
returns the version-descending order `[v2.0.0, v1.10.0, 1.5.0, 1.4.1, v1.2.0,
v1.1.0]` (1.5.0 and 1.4.1 are larger versions than 1.2.0 and 1.1.0, and the
comparator never looks at the `v` prefix), so the implementation contradicts
its own test: a code bug. -/
theorem C1_sortVersionTags_test_vector :
    SortVersionTags ["v1.2.0", "v1.1.0", "v1.10.0", "v2.0.0", "1.5.0", "1.4.1"]
      = ["v2.0.0", "v1.10.0", "1.5.0", "1.4.1", "v1.2.0", "v1.1.0"]
    ∧ (["v2.0.0", "v1.10.0", "1.5.0", "1.4.1", "v1.2.0", "v1.1.0"] : List String)
      ≠ ["v2.0.0", "v1.10.0", "v1.2.0", "v1.1.0", "1.5.0", "1.4.1"] := by
  exact ⟨by decide, by decide⟩

/-- C2 counterexample: `SortVersionTags` is not permutation-invariant.  The
tags `1.2.3` and `v1.2.3` parse to equal versions, both lack a hyphen suffix
and their `v`-stripped forms are identical, so the comparator cannot separate
them in either direction and the insertion sort keeps them in input order:
the two permutations of the same multiset give different outputs. -/
theorem C2_counterexample :
    List.Perm (["1.2.3", "v1.2.3"] : List String) ["v1.2.3", "1.2.3"]
    ∧ SortVersionTags ["1.2.3", "v1.2.3"] = ["1.2.3", "v1.2.3"]
    ∧ SortVersionTags ["v1.2.3", "1.2.3"] = ["v1.2.3", "1.2.3"]
    ∧ (["1.2.3", "v1.2.3"] : List String) ≠ ["v1.2.3", "1.2.3"] := by
  exact ⟨List.Perm.swap ("v1.2.3") ("1.2.3") [], by decide, by decide, by decide⟩

/-- C2 (amended): `SortVersionTags` is a deterministic function, and its
output is the same for every permutation of an input whose tags the comparator
totally orders: whenever every two distinct input tags are separated in some
direction, separation is asymmetric, and non-separation is transitive on the
input (all three conditions are decidable on a concrete list and fail only on
fully tied distinct tags such as `1.2.3` versus `v1.2.3`, or on prerelease
pathologies of the underlying version library), two permutations of the same
input sort to the identical list. -/
theorem C2_amended_order_invariance (l₁ l₂ : List String)
    (hperm : List.Perm l₁ l₂)
    (htot : ∀ a ∈ l₁, ∀ b ∈ l₁, a ≠ b → lessTag a b = true ∨ lessTag b a = true)
    (hasym : ∀ a ∈ l₁, ∀ b ∈ l₁, lessTag a b = true → lessTag b a = false)
    (hneg : ∀ a ∈ l₁, ∀ b ∈ l₁, ∀ c ∈ l₁,
      lessTag a b = false → lessTag b c = false → lessTag a c = false) :
    SortVersionTags l₁ = SortVersionTags l₂ := by
  have hfil : List.Perm (l₁.filter fun t => (tagVersion t).isSome)
      (l₂.filter fun t => (tagVersion t).isSome) := hperm.filter _
  have hsub1 : ∀ a ∈ l₁.filter (fun t => (tagVersion t).isSome), a ∈ l₁ :=
    fun a ha => List.mem_of_mem_filter ha
  have hsub2 : ∀ a ∈ l₂.filter (fun t => (tagVersion t).isSome), a ∈ l₁ :=
    fun a ha => hperm.mem_iff.mpr (List.mem_of_mem_filter ha)
  have hp1 := goSort_pairwise lessTag l₁ _ hsub1 hasym hneg
  have hp2 := goSort_pairwise lessTag l₁ _ hsub2 hasym hneg
  have hsp : List.Perm (goSort lessTag (l₁.filter fun t => (tagVersion t).isSome))
      (goSort lessTag (l₂.filter fun t => (tagVersion t).isSome)) :=
    (goSort_perm _ _).trans (hfil.trans (goSort_perm _ _).symm)
  refine eq_of_perm_of_pairwise (fun a b => lessTag b a = false) _ _ hsp hp1 hp2 ?_
  intro a ha b hb hab hba
  by_contra hne
  have haS : a ∈ l₁ := hsub1 a ((goSort_perm _ _).mem_iff.mp ha)
  have hbS : b ∈ l₁ := hsub1 b ((goSort_perm _ _).mem_iff.mp hb)
  rcases htot a haS b hbS hne with h | h
  · rw [h] at hba
    exact absurd hba (by simp)
  · rw [h] at hab
    exact absurd hab (by simp)

/-- C2 amended witness: a concrete permutation pair satisfying the total-order
side conditions sorts to the same output. -/
theorem C2_amended_witness :
    List.Perm (["v2.0.0", "1.5.0"] : List String) ["1.5.0", "v2.0.0"]
    ∧ SortVersionTags ["v2.0.0", "1.5.0"] = SortVersionTags ["1.5.0", "v2.0.0"] :=
  ⟨List.Perm.swap ("1.5.0") ("v2.0.0") [],
   C2_amended_order_invariance _ _ (List.Perm.swap ("1.5.0") ("v2.0.0") [])
     (by decide) (by decide) (by decide)⟩

/-- C6: when two tags parse to the same (`Compare`-equal) version the tag
whose `v`-stripped form has no hyphen is ordered before the suffixed one, and
with equal suffix status the tie is broken by descending lexicographic
comparison of the `v`-stripped strings, in both input orders; in particular
`SortVersionTags ["1.2.3", "1.2.3-alpine"]` returns the list unchanged (for
that concrete pair the versions are in fact not `Compare`-equal - the
suffixed tag carries a prerelease and already sorts strictly lower). -/
theorem C6_tie_break :
    (∀ t1 t2 : String, ∀ v1 v2 : GoVersion,
      tagVersion t1 = some v1 → tagVersion t2 = some v2 →
      versionCompare v1 v2 = .eq → versionCompare v2 v1 = .eq →
      (stripV t1.data).contains '-' = false → (stripV t2.data).contains '-' = true →
      SortVersionTags [t1, t2] = [t1, t2] ∧ SortVersionTags [t2, t1] = [t1, t2])
    ∧ (∀ t1 t2 : String, ∀ v1 v2 : GoVersion,
      tagVersion t1 = some v1 → tagVersion t2 = some v2 →
      versionCompare v1 v2 = .eq → versionCompare v2 v1 = .eq →
      (stripV t1.data).contains '-' = (stripV t2.data).contains '-' →
      charListLt (stripV t2.data) (stripV t1.data) = true →
      charListLt (stripV t1.data) (stripV t2.data) = false →
      SortVersionTags [t1, t2] = [t1, t2] ∧ SortVersionTags [t2, t1] = [t1, t2])
    ∧ SortVersionTags ["1.2.3", "1.2.3-alpine"] = ["1.2.3", "1.2.3-alpine"] := by
  refine ⟨?_, ?_, by decide⟩
  · intro t1 t2 v1 v2 h1 h2 he12 he21 hs1 hs2
    have hi1 : (tagVersion t1).isSome = true := by rw [h1]; rfl
    have hi2 : (tagVersion t2).isSome = true := by rw [h2]; rfl
    have hl21 : lessTag t2 t1 = false := by
      rw [lessTag_of_eq t2 t1 v2 v1 h2 h1 he21, hs1, hs2]
      simp
    have hl12 : lessTag t1 t2 = true := by
      rw [lessTag_of_eq t1 t2 v1 v2 h1 h2 he12, hs1, hs2]
      simp
    constructor
    · rw [sortVersionTags_pair t1 t2 hi1 hi2, hl21]
      simp
    · rw [sortVersionTags_pair t2 t1 hi2 hi1, hl12]
      simp
  · intro t1 t2 v1 v2 h1 h2 he12 he21 hs hc21 hc12
    have hi1 : (tagVersion t1).isSome = true := by rw [h1]; rfl
    have hi2 : (tagVersion t2).isSome = true := by rw [h2]; rfl
    have hl21 : lessTag t2 t1 = false := by
      rw [lessTag_of_eq t2 t1 v2 v1 h2 h1 he21, hs]
      simp [hc12]
    have hl12 : lessTag t1 t2 = true := by
      rw [lessTag_of_eq t1 t2 v1 v2 h1 h2 he12, hs]
      simp [hc21]
    constructor
    · rw [sortVersionTags_pair t1 t2 hi1 hi2, hl21]
      simp
    · rw [sortVersionTags_pair t2 t1 hi2 hi1, hl12]
      simp

/-- C6 witness: the suffix rule at `1.2.3` versus `1.2.3+a-b` (equal versions,
only the second has a hyphen) and the lexicographic rule at `1.2.3+b` versus
`1.2.3+a` (equal versions, equal suffix status, descending string order). -/
theorem C6_witness :
    (SortVersionTags ["1.2.3", "1.2.3+a-b"] = ["1.2.3", "1.2.3+a-b"]
      ∧ SortVersionTags ["1.2.3+a-b", "1.2.3"] = ["1.2.3", "1.2.3+a-b"])
    ∧ (SortVersionTags ["1.2.3+b", "1.2.3+a"] = ["1.2.3+b", "1.2.3+a"]
      ∧ SortVersionTags ["1.2.3+a", "1.2.3+b"] = ["1.2.3+b", "1.2.3+a"]) :=
  ⟨C6_tie_break.1 ("1.2.3") ("1.2.3+a-b") ⟨[1, 2, 3], []⟩ ⟨[1, 2, 3], []⟩
      (by decide) (by decide) (by decide) (by decide) (by decide) (by decide),
   C6_tie_break.2.1 ("1.2.3+b") ("1.2.3+a") ⟨[1, 2, 3], []⟩ ⟨[1, 2, 3], []⟩
      (by decide) (by decide) (by decide) (by decide) (by decide) (by decide) (by decide)⟩

/-- C9: `checkLatestMode` writes the restart marker into the pod template's
annotation map without initialising it: with a stored differing `last-digest`
and a nil pod-template annotation map the write faults (a nil-map write, a
run-time panic in Go). -/
theorem C9_nil_pod_map_fault :
    checkLatestMode (fun _ => .ok ("sha256:f0f0")) ("2024-05-01T10:00:00Z")
      ("ghcr.io/acme/app:latest") (some [(AnnotationLastDigest, "sha256:e1e1")]) none
      = .fault := by
  decide

/-- C3 counterexample: the claim promises that in latest mode, with
imagePullPolicy `Always` and a successful digest fetch, a stored differing
`last-digest` makes the check stamp the restart marker and return true.  On a
workload whose pod template has a nil annotation map the run instead faults
(the nil-map write of the restart marker), so the claim as stated is false. -/
theorem C3_counterexample :
    updateContainerIfNeeded (fun _ => .error blank) (fun _ _ => .error blank)
      (fun _ _ => .ok ("sha256:b2b2")) (fun _ => none) (fun _ _ => .error blank)
      (fun _ => none) (fun _ => none) ("2024-05-01T10:00:00Z")
      { name := "app", image := "repo:latest", imagePullPolicy := "Always" }
      (some [(AnnotationEnabled, "true"), (AnnotationMode, "latest"),
        (AnnotationLastDigest, "sha256:a1a1")])
      ("default") { annotations := none, imagePullSecrets := [] }
      = .fault
    ∧ ∀ r : Bool × Container × GoMap × PodTemplate,
        (GoResult.fault : GoResult (Bool × Container × GoMap × PodTemplate)) ≠ .ok r := by
  exact ⟨rfl, fun r h => GoResult.noConfusion h⟩

/-- C3 (amended): in latest mode with a successful digest fetch and with both
the policy-annotation map and the pod-template annotation map initialised
(non-nil - the counterexample shows the stated claim fails on a nil pod
template map), `checkLatestMode` behaves as claimed: an absent (empty)
`last-digest` stores the fetched digest and reports true; a present differing
`last-digest` is overwritten, the restart marker is stamped with the current
timestamp, and the report is true; an equal `last-digest` reports false and
changes nothing. -/
theorem C3_latest_mode (getDigest : String → Except String String)
    (now img d : String) (a p : Entries)
    (hd : getDigest img = .ok d) :
    (mapGet (some a) AnnotationLastDigest = blank →
      checkLatestMode getDigest now img (some a) (some p)
        = .ok (true, some (setEntry a AnnotationLastDigest d), some p))
    ∧ (mapGet (some a) AnnotationLastDigest ≠ blank →
      mapGet (some a) AnnotationLastDigest ≠ d →
      checkLatestMode getDigest now img (some a) (some p)
        = .ok (true, some (setEntry a AnnotationLastDigest d),
            some (setEntry p AnnotationRestart now)))
    ∧ (mapGet (some a) AnnotationLastDigest ≠ blank →
      mapGet (some a) AnnotationLastDigest = d →
      checkLatestMode getDigest now img (some a) (some p)
        = .ok (false, some a, some p)) := by
  refine ⟨?_, ?_, ?_⟩
  · intro h0
    simp only [checkLatestMode, hd, mapSet]
    rw [if_pos h0]
  · intro h0 hne
    have hne' : ¬ d = mapGet (some a) AnnotationLastDigest := fun hdd => hne hdd.symm
    simp only [checkLatestMode, hd, mapSet]
    rw [if_neg h0, if_pos hne']
  · intro h0 heq
    have heq' : ¬ d ≠ mapGet (some a) AnnotationLastDigest := fun hdd => hdd heq.symm
    simp only [checkLatestMode, hd, mapSet]
    rw [if_neg h0, if_neg heq']

/-- C3 amended witness: the three branches at concrete states. -/
theorem C3_latest_mode_witness :
    checkLatestMode (fun _ => .ok ("sha256:b2b2")) ("2024-05-01T10:00:00Z")
      ("repo:latest") (some []) (some [])
      = .ok (true, some [(AnnotationLastDigest, "sha256:b2b2")], some [])
    ∧ checkLatestMode (fun _ => .ok ("sha256:b2b2")) ("2024-05-01T10:00:00Z")
      ("repo:latest") (some [(AnnotationLastDigest, "sha256:a1a1")]) (some [])
      = .ok (true, some [(AnnotationLastDigest, "sha256:b2b2")],
          some [(AnnotationRestart, "2024-05-01T10:00:00Z")])
    ∧ checkLatestMode (fun _ => .ok ("sha256:b2b2")) ("2024-05-01T10:00:00Z")
      ("repo:latest") (some [(AnnotationLastDigest, "sha256:b2b2")]) (some [])
      = .ok (false, some [(AnnotationLastDigest, "sha256:b2b2")], some []) := by
  refine ⟨?_, ?_, ?_⟩
  · exact ((C3_latest_mode (fun _ => .ok ("sha256:b2b2")) ("2024-05-01T10:00:00Z")
      ("repo:latest") ("sha256:b2b2") [] [] rfl).1 (by decide)).trans (by decide)
  · exact ((C3_latest_mode (fun _ => .ok ("sha256:b2b2")) ("2024-05-01T10:00:00Z")
      ("repo:latest") ("sha256:b2b2") [(AnnotationLastDigest, "sha256:a1a1")] [] rfl).2.1
      (by decide) (by decide)).trans (by decide)
  · exact ((C3_latest_mode (fun _ => .ok ("sha256:b2b2")) ("2024-05-01T10:00:00Z")
      ("repo:latest") ("sha256:b2b2") [(AnnotationLastDigest, "sha256:b2b2")] [] rfl).2.2
      (by decide) (by decide)).trans (by decide)

/-- C4: in digest mode the checked tag is the allow-tags annotation verbatim
when it is nonempty and carries no `regexp:` marker and `latest` otherwise;
and with a parsed current image and a successful fetch of the digest of
`registry/repository:tagToCheck`, the proposal is the digest-addressed
`registry/repository@newDigest` exactly when the fetched digest differs from
the digest recorded in the current reference, and empty otherwise. -/
theorem C4_digest_mode :
    (∀ a : String,
      (a ≠ blank ∧ ¬ hasRegexpMarker a = true → digestTagToCheck a = a)
      ∧ (a = blank ∨ hasRegexpMarker a = true → digestTagToCheck a = "latest"))
    ∧ (∀ (parseO : String → Except String ImageInfo)
        (getDigest : String → Except String String)
        (img t : String) (info : ImageInfo) (d : String),
        parseO img = .ok info →
        getDigest (imageWithTag info t) = .ok d →
        checkDigestMode parseO getDigest img t
          = .ok (if d ≠ info.digest then imageWithDigest info d else blank)) := by
  constructor
  · intro a
    constructor
    · intro h
      unfold digestTagToCheck
      rw [if_pos h]
    · intro h
      unfold digestTagToCheck
      rw [if_neg]
      intro hcon
      rcases h with h | h
      · exact hcon.1 h
      · exact hcon.2 h
  · intro parseO getDigest img t info d hp hg
    simp only [checkDigestMode, hp, hg]
    by_cases hdd : d ≠ info.digest
    · rw [if_pos hdd, if_pos hdd]
    · rw [if_neg hdd, if_neg hdd]

/-- C4 witness: the spec's example - current reference `repo@sha256:AAAA`
(canonicalised by the reference parser to registry `index.docker.io` and
repository `library/repo`), allow-tags unset so the checked tag is `latest`,
remote digest `sha256:BBBB` - proposes the digest-addressed image. -/
theorem C4_digest_mode_witness :
    digestTagToCheck blank = "latest"
    ∧ checkDigestMode
        (fun s => if s = "repo@sha256:AAAA"
          then .ok (ImageInfo.mk ("index.docker.io") ("library/repo") blank ("sha256:AAAA"))
          else .error blank)
        (fun s => if s = "index.docker.io/library/repo:latest"
          then .ok ("sha256:BBBB") else .error blank)
        ("repo@sha256:AAAA") ("latest")
        = .ok ("index.docker.io/library/repo@sha256:BBBB") := by
  refine ⟨(C4_digest_mode.1 blank).2 (Or.inl rfl), ?_⟩
  exact (C4_digest_mode.2
    (fun s => if s = "repo@sha256:AAAA"
      then .ok (ImageInfo.mk ("index.docker.io") ("library/repo") blank ("sha256:AAAA"))
      else .error blank)
    (fun s => if s = "index.docker.io/library/repo:latest"
      then .ok ("sha256:BBBB") else .error blank)
    ("repo@sha256:AAAA") ("latest")
    (ImageInfo.mk ("index.docker.io") ("library/repo") blank ("sha256:AAAA")) ("sha256:BBBB")
    rfl rfl).trans (by rfl)

/-- C7: release mode is idempotent - when the current image parses, the tag
listing and the regex filter succeed, and the current tag already equals the
head of `SortVersionTags` on the filtered tags, `checkReleaseMode` proposes no
change (the empty proposal); re-running on the updated image therefore
proposes nothing further. -/
theorem C7_release_idempotent (parseO : String → Except String ImageInfo)
    (listTags : String → Except String (List String))
    (compileO : String → Option (String → Bool))
    (img regex : String) (info : ImageInfo) (tags ftags : List String)
    (hp : parseO img = .ok info)
    (hl : listTags img = .ok tags)
    (hf : filterTagsByRegex compileO tags regex = .ok ftags)
    (hh : (SortVersionTags ftags).head? = some info.tag) :
    checkReleaseMode parseO listTags compileO img regex = .ok blank := by
  simp only [checkReleaseMode, hp, hl, hf]
  cases hsort : SortVersionTags ftags with
  | nil =>
    rw [hsort] at hh
  | cons top rest =>
    rw [hsort] at hh
    have htop : top = info.tag := by
      simpa using hh
    simp [hsort, htop]

/-- C7 witness: a current tag already at the top of the sorted tags yields the
empty proposal. -/
theorem C7_release_idempotent_witness :
    checkReleaseMode
      (fun _ => .ok (ImageInfo.mk ("docker.io") ("library/app") ("1.2.0") blank))
      (fun _ => .ok ["1.2.0", "1.1.0"]) (fun _ => none)
      ("docker.io/library/app:1.2.0") blank = .ok blank :=
  C7_release_idempotent
    (fun _ => .ok (ImageInfo.mk ("docker.io") ("library/app") ("1.2.0") blank))
    (fun _ => .ok ["1.2.0", "1.1.0"]) (fun _ => none)
    ("docker.io/library/app:1.2.0") blank
    (ImageInfo.mk ("docker.io") ("library/app") ("1.2.0") blank)
    ["1.2.0", "1.1.0"] ["1.2.0", "1.1.0"] rfl rfl rfl (by decide)

/-- C8: `filterTagsByRegex` returns its input unchanged on the empty pattern;
on a nonempty pattern that compiles it keeps exactly the matching tags in
input order; it errors exactly when the pattern is nonempty and fails to
compile; and on the spec's example it keeps only `1.0`. -/
theorem C8_filterTagsByRegex :
    (∀ (compileO : String → Option (String → Bool)) (tags : List String),
      filterTagsByRegex compileO tags blank = .ok tags)
    ∧ (∀ (compileO : String → Option (String → Bool)) (tags : List String)
        (r : String) (m : String → Bool), r ≠ blank → compileO r = some m →
        filterTagsByRegex compileO tags r = .ok (tags.filter m))
    ∧ (∀ (compileO : String → Option (String → Bool)) (tags : List String) (r : String),
        filterTagsByRegex compileO tags r = .error invalidRegexMsg ↔
          (r ≠ blank ∧ compileO r = none))
    ∧ filterTagsByRegex (fun p => if p = "^[0-9.]+$" then some matchNumsDots else none)
        ["1.0", "2.0-beta", "v3"] ("^[0-9.]+$") = .ok ["1.0"] := by
  refine ⟨?_, ?_, ?_, by rfl⟩
  · intro cO tags
    simp [filterTagsByRegex]
  · intro cO tags r m hr hm
    simp only [filterTagsByRegex, if_neg hr, hm]
  · intro cO tags r
    constructor
    · intro h
      by_cases hr : r = blank
      · rw [filterTagsByRegex, if_pos hr] at h
        exact absurd h (by simp)
      · cases hn : cO r with
        | none => exact ⟨hr, rfl⟩
        | some m =>
          rw [filterTagsByRegex, if_neg hr, hn] at h
          exact absurd h (by simp)
    · intro h
      simp only [filterTagsByRegex, if_neg h.1, h.2]

/-- C8 witness: the three universally quantified parts at concrete inputs
(empty pattern, a compiling pattern, a non-compiling pattern). -/
theorem C8_filterTagsByRegex_witness :
    filterTagsByRegex (fun _ => none) ["a", "b"] blank = .ok ["a", "b"]
    ∧ filterTagsByRegex (fun p => if p = "^[0-9.]+$" then some matchNumsDots else none)
        ["7.5", "x1"] ("^[0-9.]+$") = .ok (["7.5", "x1"].filter matchNumsDots)
    ∧ filterTagsByRegex (fun _ => none) ["a"] ("(") = .error invalidRegexMsg := by
  refine ⟨C8_filterTagsByRegex.1 (fun _ => none) ["a", "b"], ?_, ?_⟩
  · exact C8_filterTagsByRegex.2.1
      (fun p => if p = "^[0-9.]+$" then some matchNumsDots else none)
      ["7.5", "x1"] ("^[0-9.]+$") matchNumsDots (by decide) rfl
  · exact (C8_filterTagsByRegex.2.2.1 (fun _ => none) ["a"] ("(")).mpr ⟨by decide, rfl⟩

/-- C5 counterexample: the claim says the resolver returns the credentials of
the first secret in list order whose docker-config document has an entry for
the image's registry host.  Secret `s1` has such an entry (username `u1`,
password `p1`) but its nonempty auth field fails to base64-decode, so the code
skips the whole secret and returns the credentials of the later secret `s2`:
the claim as stated is false. -/
theorem C5_counterexample :
    (getRegistryClientForImage
      (fun _ => .ok (ImageInfo.mk ("registry.example.com") ("team/app") ("1.0") blank))
      (fun _ n => if n = "s1"
        then .ok (K8sSecret.mk SecretTypeDockerConfigJson [(DockerConfigJsonKey, "cfg1")])
        else .ok (K8sSecret.mk SecretTypeDockerConfigJson [(DockerConfigJsonKey, "cfg2")]))
      (fun c => if c = "cfg1"
        then some (DockerConfigJSON.mk
          [("registry.example.com", DockerConfigEntry.mk ("u1") ("p1") ("%%%"))])
        else some (DockerConfigJSON.mk
          [("registry.example.com", DockerConfigEntry.mk ("u2") ("p2") blank)]))
      (fun _ => none)
      ("registry.example.com/team/app:1.0") ("default") ["s1", "s2"]).1
      = RegistryClient.basic ("u2") ("p2")
    ∧ RegistryClient.basic ("u2") ("p2") ≠ RegistryClient.basic ("u1") ("p1") := by
  exact ⟨rfl, by decide⟩

/-- C5 (amended): the resolver never returns an error - a parse failure of the
image reference degrades to the anonymous client - and, when the image parses,
it returns the credentials of the first secret in list order that yields a
usable entry for the image's registry host (fetched successfully, of
docker-config type, carrying the config key, unmarshalling, holding an entry
for the host, and whose auth field, when nonempty, base64-decodes; username
and password come from the decoded auth split at its first colon when one is
present, and from the entry's fields otherwise), and the anonymous client when
no secret qualifies. -/
theorem C5_credential_resolver (parseO : String → Except String ImageInfo)
    (getSecretO : String → String → Except String K8sSecret)
    (unmarshalO : String → Option DockerConfigJSON)
    (b64decodeO : String → Option String)
    (image ns : String) (secretNames : List String) :
    (getRegistryClientForImage parseO getSecretO unmarshalO b64decodeO
      image ns secretNames).2 = none
    ∧ (∀ e, parseO image = .error e →
        (getRegistryClientForImage parseO getSecretO unmarshalO b64decodeO
          image ns secretNames).1 = NewRegistryClient blank blank)
    ∧ (∀ info, parseO image = .ok info →
        (getRegistryClientForImage parseO getSecretO unmarshalO b64decodeO
          image ns secretNames).1 =
          ((secretNames.findSome?
            (secretCreds getSecretO unmarshalO b64decodeO ns info.registry)).getD
            (NewRegistryClient blank blank))) := by
  refine ⟨?_, ?_, ?_⟩
  · cases hp : parseO image with
    | error e => simp [getRegistryClientForImage, hp]
    | ok info => simp [getRegistryClientForImage, hp]
  · intro e he
    simp [getRegistryClientForImage, he]
  · intro info hi
    simp only [getRegistryClientForImage, hi]
    exact findRegistryCreds_findSome getSecretO unmarshalO b64decodeO ns info.registry
      secretNames

/-- C5 amended witness: one qualifying secret yields its basic credentials and
a nil error. -/
theorem C5_credential_resolver_witness :
    (getRegistryClientForImage
      (fun _ => .ok (ImageInfo.mk ("registry.example.com") ("team/app") ("1.0") blank))
      (fun _ n => if n = "s1"
        then .ok (K8sSecret.mk SecretTypeDockerConfigJson [(DockerConfigJsonKey, "cfg1")])
        else .error blank)
      (fun c => if c = "cfg1"
        then some (DockerConfigJSON.mk
          [("registry.example.com", DockerConfigEntry.mk ("u1") ("p1") blank)])
        else none)
      (fun _ => none)
      ("registry.example.com/team/app:1.0") ("default") ["s1"]).1
      = RegistryClient.basic ("u1") ("p1")
    ∧ (getRegistryClientForImage
      (fun _ => .ok (ImageInfo.mk ("registry.example.com") ("team/app") ("1.0") blank))
      (fun _ n => if n = "s1"
        then .ok (K8sSecret.mk SecretTypeDockerConfigJson [(DockerConfigJsonKey, "cfg1")])
        else .error blank)
      (fun c => if c = "cfg1"
        then some (DockerConfigJSON.mk
          [("registry.example.com", DockerConfigEntry.mk ("u1") ("p1") blank)])
        else none)
      (fun _ => none)
      ("registry.example.com/team/app:1.0") ("default") ["s1"]).2 = none := by
  constructor
  · exact ((C5_credential_resolver
      (fun _ => .ok (ImageInfo.mk ("registry.example.com") ("team/app") ("1.0") blank))
      (fun _ n => if n = "s1"
        then .ok (K8sSecret.mk SecretTypeDockerConfigJson [(DockerConfigJsonKey, "cfg1")])
        else .error blank)
      (fun c => if c = "cfg1"
        then some (DockerConfigJSON.mk
          [("registry.example.com", DockerConfigEntry.mk ("u1") ("p1") blank)])
        else none)
      (fun _ => none)
      ("registry.example.com/team/app:1.0") ("default") ["s1"]).2.2
      (ImageInfo.mk ("registry.example.com") ("team/app") ("1.0") blank) rfl).trans (by rfl)
  · exact (C5_credential_resolver
      (fun _ => .ok (ImageInfo.mk ("registry.example.com") ("team/app") ("1.0") blank))
      (fun _ n => if n = "s1"
        then .ok (K8sSecret.mk SecretTypeDockerConfigJson [(DockerConfigJsonKey, "cfg1")])
        else .error blank)
      (fun c => if c = "cfg1"
        then some (DockerConfigJSON.mk
          [("registry.example.com", DockerConfigEntry.mk ("u1") ("p1") blank)])
        else none)
      (fun _ => none)
      ("registry.example.com/team/app:1.0") ("default") ["s1"]).1

/-- C10: an enabled container whose mode annotation is absent (the empty
string) is dispatched to release mode - the empty mode silently defaults to
`release`, so `updateContainerIfNeeded` computes exactly the release-mode
evaluation on such a workload. -/
theorem C10_empty_mode_release (parseO : String → Except String ImageInfo)
    (listTagsO : RegistryClient → String → Except String (List String))
    (getDigestO : RegistryClient → String → Except String String)
    (compileO : String → Option (String → Bool))
    (getSecretO : String → String → Except String K8sSecret)
    (unmarshalO : String → Option DockerConfigJSON)
    (b64decodeO : String → Option String)
    (now : String) (container : Container) (a : Entries)
    (ns : String) (podTemplate : PodTemplate)
    (hen : mapGet (some a) AnnotationEnabled = "true")
    (hcn : mapGet (some a) AnnotationContainer = blank
      ∨ mapGet (some a) AnnotationContainer = container.name)
    (hmode : mapGet (some a) AnnotationMode = blank) :
    updateContainerIfNeeded parseO listTagsO getDigestO compileO getSecretO unmarshalO
      b64decodeO now container (some a) ns podTemplate
      = (match checkReleaseMode parseO
          (listTagsO (getRegistryClientForImage parseO getSecretO unmarshalO b64decodeO
            container.image ns podTemplate.imagePullSecrets).1) compileO container.image
          (if hasRegexpMarker (mapGet (some a) AnnotationAllowTags)
            then trimRegexpMarker (mapGet (some a) AnnotationAllowTags) else blank) with
        | .error e => .err e
        | .ok newImage =>
          if newImage ≠ blank
            then .ok (true, { container with image := newImage }, some a, podTemplate)
            else .ok (false, container, some a, podTemplate)) := by
  have hen' : ¬ mapGet (some a) AnnotationEnabled ≠ "true" := fun hc => hc hen
  have hcn' : ¬ (mapGet (some a) AnnotationContainer ≠ blank
      ∧ mapGet (some a) AnnotationContainer ≠ container.name) := by
    rcases hcn with h | h
    · exact fun hc => hc.1 h
    · exact fun hc => hc.2 h
  simp only [updateContainerIfNeeded, hmode]
  rw [if_neg hen', if_neg hcn']
  simp

/-- C10 witness: a workload with only the enabled annotation set receives a
release-mode tag update. -/
theorem C10_empty_mode_release_witness :
    updateContainerIfNeeded
      (fun _ => .ok (ImageInfo.mk ("docker.io") ("library/app") ("1.0.0") blank))
      (fun _ _ => .ok ["1.1.0"]) (fun _ _ => .error blank) (fun _ => none)
      (fun _ _ => .error blank) (fun _ => none) (fun _ => none)
      ("2024-05-01T10:00:00Z")
      (Container.mk ("app") ("docker.io/library/app:1.0.0") ("IfNotPresent"))
      (some [(AnnotationEnabled, "true")]) ("default") (PodTemplate.mk (some []) [])
      = .ok (true, Container.mk ("app") ("docker.io/library/app:1.1.0") ("IfNotPresent"),
          some [(AnnotationEnabled, "true")], PodTemplate.mk (some []) []) := by
  exact (C10_empty_mode_release
    (fun _ => .ok (ImageInfo.mk ("docker.io") ("library/app") ("1.0.0") blank))
    (fun _ _ => .ok ["1.1.0"]) (fun _ _ => .error blank) (fun _ => none)
    (fun _ _ => .error blank) (fun _ => none) (fun _ => none)
    ("2024-05-01T10:00:00Z")
    (Container.mk ("app") ("docker.io/library/app:1.0.0") ("IfNotPresent"))
    [(AnnotationEnabled, "true")] ("default") (PodTemplate.mk (some []) [])
    (by decide) (Or.inl (by decide)) (by decide)).trans (by rfl)

end ImageUpdater
